import Mathlib

/-!
Shallow embedding of the `polish` package (a Polish-notation expression
evaluator written in Go).  The embedding follows `src/unnamed/part_001`,
the current version of `polish.go`: it models the `Context` structure,
the recursive evaluator `subEval`, the entry point `Eval` with its
`recover`-based fault boundary, the registration functions `AddFunc` and
`SetValue`, the tokenizer (`strings.Split` on a single space plus the
empty-fragment filter) and the literal-coercion loop driven by
`parse_order`.

Modelling conventions:
* Go `reflect.Value`s flowing through the evaluator are modelled by the
  closed universe `Value` (int, float64, string, bool) which covers every
  kind the specification and the registered callables use.
* Go `int` is modelled as a mathematical integer together with the 64-bit
  range checks that `strconv.Atoi` performs.
* Go `float64` is modelled as an exact rational; the semantics of
  `strconv.ParseFloat` is modelled by its documented decimal grammar
  (hexadecimal floats, "inf"/"nan" forms and digit-group underscores are
  outside the fragment exercised here), its value is the exact rational
  value of the literal (rounding to the nearest double is abstracted),
  and its documented range failure (`ErrRange`) is modelled by the
  magnitude bound 2^1024.
* Go panics are explicit: a callable invocation returns
  `Except GoPanic (List Value)`, the out-of-range slice access
  `c.terms[0]` on an empty queue produces `GoPanic.indexOutOfRange`, and
  the deferred `recover` block of `Eval` converts any such fault into a
  returned `Error` value, exactly as the source does.
* The recursion of `subEval` (which terminates because every call
  consumes at least one term) is expressed with a fuel parameter; `Eval`
  supplies ample fuel for its term queue, so the fuel-exhaustion branch
  is unreachable for the executions studied here and exists only to make
  the function total.
-/

namespace Polish

set_option maxRecDepth 100000

/-- A Go panic value, as it can reach the `recover()` in `Eval`.
`indexOutOfRange` is the runtime error raised by `c.terms[0]` on an
empty slice; `valueError` models `*reflect.ValueError` (what the typed
accessors of `reflect.Value` panic with); `callUsing` models the panic
of `reflect.Value.Call` on arguments of the wrong type; `goAbort` is a
deliberate `panic(msg)` from inside a registered callable. -/
inductive GoPanic where
  | indexOutOfRange
  | nilDeref
  | valueError (method kind : String)
  | callUsing (msg : String)
  | goAbort (msg : String)
  deriving DecidableEq

/-- The text that `fmt.Sprintf("%s", r)` / `fmt.Sprintf("%v", r)` in the
recover block of `Eval` produces for the recovered value. -/
def GoPanic.message : GoPanic → String
  | .indexOutOfRange => "runtime error: index out of range [0] with length 0"
  | .nilDeref => "runtime error: invalid memory address or nil pointer dereference"
  | .valueError m k => "reflect: call of " ++ m ++ " on " ++ k ++ " Value"
  | .callUsing m => m
  | .goAbort m => m

/-- The `Error` struct of the package: an error string plus the stack
trace captured by `debug.Stack()`.  The byte content of the trace is
abstracted; `Stack = true` means the field is set (non-nil). -/
structure Error where
  ErrorString : String
  Stack : Bool
  deriving DecidableEq

/-- The universe of runtime values (`reflect.Value`s) flowing through the
evaluator: the kinds produced by literal coercion and by the registered
callables of this development. -/
inductive Value where
  | int (n : ℤ)
  | float (q : ℚ)
  | str (s : String)
  | bool (b : Bool)
  deriving DecidableEq

/-- The `reflect.Kind` name of a value, as printed in panic messages. -/
def Value.kindName : Value → String
  | .int _ => "int"
  | .float _ => "float64"
  | .str _ => "string"
  | .bool _ => "bool"

/-- Whether a value is of the Integer kind. -/
def Value.isInt : Value → Bool
  | .int _ => true
  | _ => false

/-- Whether a value is of the Text (string) kind. -/
def Value.isStr : Value → Bool
  | .str _ => true
  | _ => false

/-- Model of the typed accessor `reflect.Value.Float` applied to a value
returned by `Eval`: it yields the float64 when the value's kind is
Float, and otherwise panics with a `*reflect.ValueError` (it does not
return a mismatch result). -/
def Value.goFloat : Value → Except GoPanic ℚ
  | .float q => .ok q
  | v => .error (.valueError "reflect.Value.Float" v.kindName)

/-- The `function` struct: the registered callable (as invoked through
`reflect.Value.Call`, so an invocation may panic) together with `num`,
the number of input values taken from `reflect.Type.NumIn`. -/
structure function where
  f : List Value → Except GoPanic (List Value)
  num : Nat

/-- An arbitrary Go `interface{}` value as passed to `AddFunc`: a
callable (reflect kind `Func`, carrying its arity), a non-nil value of
some other kind (carrying the `%v` rendering of its `reflect.Type`), or
the untyped nil interface, on which `reflect.TypeOf` returns a nil
`reflect.Type`. -/
inductive GoVal where
  | func (fn : function)
  | nonFunc (typeDesc : String)
  | nilVal

/-- `polish.Type`, an integer enumeration (`Integer`, `Float`, `String`
via `iota`); `SetParseOrder` accepts arbitrary values of it, so the
model keeps the full integer carrier. -/
abbrev Ty := Int

/-- `polish.Integer` -/
abbrev Ty.Integer : Ty := 0
/-- `polish.Float` -/
abbrev Ty.Float : Ty := 1
/-- `polish.String` -/
abbrev Ty.StringT : Ty := 2

/-- The `Context` struct: function registry, constant table, the term
queue field mutated by `Eval`/`subEval`, and the literal parse order. -/
structure Context where
  funcs : String → Option function
  vals : String → Option Value
  terms : List String
  parse_order : List Ty

/-! ### Literal coercion (`strconv.Atoi`, `strconv.ParseFloat`, and the
`parse_order` loop of `subEval`) -/

/-- Strip one optional leading sign, reporting whether it was `'-'`. -/
def stripSign : List Char → Bool × List Char
  | [] => (false, [])
  | c :: r =>
    if c = '-' then (true, r)
    else if c = '+' then (false, r)
    else (false, c :: r)

/-- Numeric value of a decimal digit character. -/
def digitVal (c : Char) : Nat := c.toNat - 48

/-- Value of a list of decimal digit characters. -/
def digitsToNat (ds : List Char) : Nat :=
  ds.foldl (fun a c => a * 10 + digitVal c) 0

/-- The signed value of a (sign flag, digits) pair. -/
def signedDigitsVal (p : Bool × List Char) : Int :=
  if p.1 then -(digitsToNat p.2 : Int) else (digitsToNat p.2 : Int)

/-- Model of `strconv.Atoi` on a 64-bit platform: an optional sign
followed by at least one decimal digit, failing (with `ErrSyntax` or
`ErrRange`, both of which make `e == nil` false in `subEval`) on any
other shape or on a value outside the `int` range. -/
def goAtoi (s : String) : Option Int :=
  let p := stripSign s.toList
  if p.2.isEmpty || !(p.2.all Char.isDigit) then none
  else if signedDigitsVal p < -(2 ^ 63) || (2 ^ 63 - 1 : Int) < signedDigitsVal p then none
  else some (signedDigitsVal p)

/-- Consume an optional fraction part `.digits*`; returns the fraction
digits and the rest of the input. -/
def takeFrac : List Char → List Char × List Char
  | [] => ([], [])
  | c :: r =>
    if c = '.' then (r.takeWhile Char.isDigit, r.dropWhile Char.isDigit)
    else ([], c :: r)

/-- Consume an optional well-formed exponent part `(e|E) sign? digits+`;
returns (exponent is negative, exponent digits, rest).  A malformed
exponent is not consumed at all (it is left as trailing input, which
makes the whole parse fail, as in `strconv.ParseFloat`). -/
def takeExp : List Char → Bool × List Char × List Char
  | [] => (false, [], [])
  | c :: r =>
    if c = 'e' ∨ c = 'E' then
      let p := stripSign r
      let ds := p.2.takeWhile Char.isDigit
      if ds.isEmpty then (false, [], c :: r) else (p.1, ds, p.2.dropWhile Char.isDigit)
    else (false, [], c :: r)

/-- Decomposition of a candidate decimal floating-point literal:
sign, integer-part digits, fraction digits, exponent sign and digits,
and unconsumed trailing characters. -/
structure FloatShape where
  neg : Bool
  ip : List Char
  fp : List Char
  expNeg : Bool
  ed : List Char
  trailing : List Char

/-- Decompose a string along the decimal grammar of
`strconv.ParseFloat`: `sign? digits* ('.' digits*)? ((e|E) sign? digits+)?`. -/
def floatParts (s : String) : FloatShape :=
  let p := stripSign s.toList
  let ip := p.2.takeWhile Char.isDigit
  let cs2 := p.2.dropWhile Char.isDigit
  let q := takeFrac cs2
  let r := takeExp q.2
  ⟨p.1, ip, q.1, r.1, r.2.1, r.2.2⟩

/-- Syntactic validity for `strconv.ParseFloat`: at least one mantissa
digit and no trailing characters. -/
def goFloatSyntax (s : String) : Bool :=
  let P := floatParts s
  (!P.ip.isEmpty || !P.fp.isEmpty) && P.trailing.isEmpty

/-- Model of the `ErrRange` overflow failure of `strconv.ParseFloat`:
the literal's magnitude reaches 2^1024 (beyond every finite float64).
The exact rounding boundary of the largest double is abstracted. -/
def goFloatOverflow (s : String) : Bool :=
  let P := floatParts s
  let M := digitsToNat (P.ip ++ P.fp)
  if P.expNeg then
    decide ((2 : ℕ) ^ 1024 * 10 ^ (P.fp.length + digitsToNat P.ed) ≤ M)
  else
    decide ((2 : ℕ) ^ 1024 * 10 ^ P.fp.length ≤ M * 10 ^ digitsToNat P.ed)

/-- The exact rational value denoted by a decimal floating-point
literal. -/
def floatValQ (s : String) : ℚ :=
  let P := floatParts s
  let e : ℤ := if P.expNeg then -(digitsToNat P.ed : ℤ) else (digitsToNat P.ed : ℤ)
  let mag : ℚ := (digitsToNat (P.ip ++ P.fp) : ℚ) / (10 : ℚ) ^ P.fp.length * (10 : ℚ) ^ e
  if P.neg then -mag else mag

/-- Model of `strconv.ParseFloat(term, 64)`: succeeds exactly on the
decimal grammar within float64 range, yielding the literal's value. -/
def goParseFloat (s : String) : Option ℚ :=
  if goFloatSyntax s && !goFloatOverflow s then some (floatValQ s) else none

/-- The literal-coercion loop of `subEval` (lines 90–114 of the source):
try each kind of `parse_order` in turn; `.error` models the early
`return nil, &Error{"Unknown polish.Value: %v"}` for an unknown kind,
`.ok none` means the loop finished without setting `val`. -/
def parseLoop (term : String) : List Ty → Except Error (Option Value)
  | [] => .ok none
  | t :: rest =>
    if t = Ty.Integer then
      match goAtoi term with
      | some n => .ok (some (.int n))
      | none => parseLoop term rest
    else if t = Ty.Float then
      match goParseFloat term with
      | some q => .ok (some (.float q))
      | none => parseLoop term rest
    else if t = Ty.StringT then
      .ok (some (.str term))
    else
      .error ⟨"Unknown polish.Value: " ++ toString t, false⟩

/-! ### Tokenizer (`strings.Split(expression, " ")` plus the
non-empty filter in `Eval`) -/

/-- `strings.Split` on the single-character separator `" "`. -/
def splitOnSpace : List Char → List (List Char)
  | [] => [[]]
  | c :: rest =>
    if c = ' ' then [] :: splitOnSpace rest
    else
      match splitOnSpace rest with
      | t :: ts => (c :: t) :: ts
      | [] => [[c]]

/-- The term queue built by `Eval`: split on spaces, drop empty
fragments. -/
def tokenize (s : String) : List String :=
  ((splitOnSpace s.toList).map (fun cs => String.mk cs)).filter (fun t => 0 < t.length)

/-! ### The recursive evaluator `subEval` -/

/-- A pending activation of the evaluator: `eval ts` is a call of
`subEval` with term queue `ts`; `collect need ts acc` is the
argument-gathering loop `for len(args) < f.num` with pending arguments
`acc`. -/
inductive Req where
  | eval (terms : List String)
  | collect (need : Nat) (terms : List String) (acc : List Value)

/-- An abnormal stop of the evaluator: a Go panic unwinding towards the
`recover` in `Eval`, or exhaustion of the model's fuel (unreachable for
the fuel `Eval` supplies). -/
inductive Stop where
  | fuel
  | fault (p : GoPanic)
  deriving DecidableEq

/-- The term queue carried by a pending activation. -/
def Req.termsOf : Req → List String
  | .eval ts => ts
  | .collect _ ts _ => ts

/-- One engine for `subEval` and its argument-gathering loop
(source lines 61–120), structurally recursive on fuel.  The result is
the term queue after the activation together with either an abnormal
stop or the `(vs, err)` pair that the Go function returns; every
`return` site with a non-nil `err` has `vs = nil`, as in the source,
where the named result `vs` is never assigned on those paths. -/
def run (c : Context) : Nat → Req → List String × Except Stop (List Value × Option Error)
  | 0, r => (r.termsOf, .error .fuel)
  | _ + 1, .eval [] =>
    -- `term := c.terms[0]` on an empty queue: runtime panic.
    ([], .error (.fault .indexOutOfRange))
  | fuel + 1, .eval (term :: rest) =>
    match c.funcs term with
    | some f =>
      match run c fuel (.collect f.num rest []) with
      | (ts, .error s) => (ts, .error s)
      | (ts, .ok (_, some e)) => (ts, .ok ([], some e))
      | (ts, .ok (args, none)) =>
        match f.f (args.take f.num) with
        | .error p => (ts, .error (.fault p))
        | .ok outs => (ts, .ok (outs ++ args.drop f.num, none))
    | none =>
      match c.vals term with
      | some v => (rest, .ok ([v], none))
      | none =>
        match parseLoop term c.parse_order with
        | .error e => (rest, .ok ([], some e))
        | .ok none => (rest, .ok ([], some ⟨"Unable to parse term: \x27" ++ term ++ "\x27", false⟩))
        | .ok (some v) => (rest, .ok ([v], none))
  | fuel + 1, .collect need terms acc =>
    if acc.length < need then
      match run c fuel (.eval terms) with
      | (ts, .error s) => (ts, .error s)
      | (ts, .ok (_, some e)) => (ts, .ok ([], some e))
      | (ts, .ok (vs, none)) => run c fuel (.collect need ts (acc ++ vs))
    else (terms, .ok (acc, none))

/-- The result of `Eval`: the value list, the error, and the `Context`
after the call (whose `terms` field `Eval` and `subEval` mutate). -/
structure EvalResult where
  vals : List Value
  err : Option Error
  ctx : Context

/-- `Context.Eval` (source lines 125–150): tokenize the expression into
the fresh term queue, run `subEval` once at the top level, and let the
deferred `recover` convert any panic into an `Error` carrying the
expression text and a stack trace.  The fuel `2 * n + 4` is ample for a
queue of `n` terms, each of which is consumed at most once. -/
def Context.Eval (c : Context) (expression : String) : EvalResult :=
  let terms := tokenize expression
  match run c (2 * terms.length + 4) (.eval terms) with
  | (ts, .ok (vs, err)) => ⟨vs, err, { c with terms := ts }⟩
  | (ts, .error (.fault p)) =>
    ⟨[], some ⟨"Failed to evaluate (" ++ expression ++ "): " ++ p.message ++ ".", true⟩,
      { c with terms := ts }⟩
  | (ts, .error .fuel) =>
    -- Model artifact: unreachable for the fuel chosen above.
    ⟨[], some ⟨"model: fuel exhausted", false⟩, { c with terms := ts }⟩

/-! ### Registration (`AddFunc`, `SetValue`, `SetParseOrder`,
`MakeContext`) -/

/-- `Context.AddFunc` (source lines 154–170): on the untyped nil
argument, `typ := reflect.TypeOf(f)` is nil and `typ.Kind()` panics
with a nil-pointer dereference (`AddFunc` installs no `recover`, so the
panic escapes to the caller); otherwise reject non-callables,
already-registered function names and names bound as constants, in that
order, and finally store the descriptor with `num` taken from the
callable's own signature (`reflect.TypeOf(f).NumIn()`). -/
def Context.AddFunc (c : Context) (name : String) (v : GoVal) :
    Except GoPanic (Context × Option Error) :=
  match v with
  | .nilVal => .error .nilDeref
  | .nonFunc td =>
    .ok (c, some ⟨"Tried to add a " ++ td ++ " instead of a function.", false⟩)
  | .func fn =>
    match c.funcs name with
    | some _ =>
      .ok (c, some ⟨"Tried to add the function \x27" ++ name ++ "\x27 more than once.", false⟩)
    | none =>
      match c.vals name with
      | some _ =>
        .ok (c, some ⟨"Tried to give the name \x27" ++ name ++ "\x27 to a function and a value.", false⟩)
      | none =>
        .ok ({ c with funcs := fun k => if k = name then some fn else c.funcs k }, none)

/-- The context as it stands after an `AddFunc` call: updated on
success, unchanged when the call returns an error or panics (the panic
fires before any map write). -/
def afterAddFunc (c : Context) (name : String) (v : GoVal) : Context :=
  match c.AddFunc name v with
  | .ok p => p.1
  | .error _ => c

/-- `Context.SetValue` (source lines 174–180): reject names bound as
functions, otherwise bind (or rebind) the constant. -/
def Context.SetValue (c : Context) (name : String) (v : Value) : Context × Option Error :=
  match c.funcs name with
  | some _ =>
    (c, some ⟨"Tried to give the name \x27" ++ name ++ "\x27 to a function and a value.", false⟩)
  | none => ({ c with vals := fun k => if k = name then some v else c.vals k }, none)

/-- `Context.SetParseOrder` (source lines 188–190). -/
def Context.SetParseOrder (c : Context) (types : List Ty) : Context :=
  { c with parse_order := types }

/-- `MakeContext` (source lines 193–199): empty registries, default
parse order `Integer, Float, String`. -/
def MakeContext : Context :=
  { funcs := fun _ => none
    vals := fun _ => none
    terms := []
    parse_order := [Ty.Integer, Ty.Float, Ty.StringT] }

/-! ### Registration sequences (for the name-exclusivity invariant) -/

/-- One registration step on a `Context`: an `AddFunc` or a `SetValue`
call (possible errors are reported to the caller and do not change the
context). -/
inductive Op where
  | addFunc (name : String) (v : GoVal)
  | setValue (name : String) (v : Value)

/-- The context after one registration step (unchanged when the step
fails or panics, since `AddFunc` writes nothing before its checks). -/
def applyOp (c : Context) : Op → Context
  | .addFunc name v => afterAddFunc c name v
  | .setValue name v => (c.SetValue name v).1

/-- The context after a sequence of registration steps. -/
def applyOps (c : Context) (ops : List Op) : Context := ops.foldl applyOp c

/-- No name is simultaneously bound to a function and a constant. -/
def ExclusiveNames (c : Context) : Prop :=
  ∀ n : String, c.funcs n = none ∨ c.vals n = none

/-! ### Spec-side literal grammar (for the literal-coercion claim).
These definitions follow the specification's words for canonical
literals and are compared against the source-modelled parsers. -/

/-- Spec: an integer literal in canonical form is an optional sign
followed by (one or more) digits. -/
def specCanonicalIntLit (s : String) : Bool :=
  let p := stripSign s.toList
  !p.2.isEmpty && p.2.all Char.isDigit

/-- The integer value denoted by a canonical integer literal. -/
def specIntLitVal (s : String) : Int := signedDigitsVal (stripSign s.toList)

/-- Whether a canonical integer literal's value fits the 64-bit `int`
of the implementation platform. -/
def specIntLitInRange (s : String) : Bool :=
  decide (-(2 ^ 63) ≤ specIntLitVal s) && decide (specIntLitVal s ≤ 2 ^ 63 - 1)

/-- Spec: a canonical float literal is an optional sign, digits, an
optional fractional part and an optional exponent. -/
def specCanonicalFloatLit (s : String) : Bool :=
  let P := floatParts s
  !P.ip.isEmpty && P.trailing.isEmpty

/-- The exact rational value denoted by a canonical float literal. -/
def specFloatLitVal (s : String) : ℚ := floatValQ s

/-! ### Concrete callables used by the witnesses -/

/-- The callable wrapping of a unary integer function `func(int) int`
(arity 1, one output), as `reflect.Value.Call` exposes it: it panics on
arguments of the wrong kind. -/
def intFn1 (g : Int → Int) : function :=
  ⟨fun vs =>
    match vs with
    | [.int a] => .ok [.int (g a)]
    | _ => .error (.callUsing "reflect: Call using wrong argument types"), 1⟩

/-- The callable wrapping of a binary integer function
`func(int, int) int`. -/
def intFn2 (g : Int → Int → Int) : function :=
  ⟨fun vs =>
    match vs with
    | [.int a, .int b] => .ok [.int (g a b)]
    | _ => .error (.callUsing "reflect: Call using wrong argument types"), 2⟩

/-- The callable wrapping of `rev3 := func(a, b, c int) (int, int, int)
{ return c, b, a }`. -/
def rev3fn : function :=
  ⟨fun vs =>
    match vs with
    | [.int a, .int b, .int c] => .ok [.int c, .int b, .int a]
    | _ => .error (.callUsing "reflect: Call using wrong argument types"), 3⟩

/-- A zero-argument callable whose body is a deliberate `panic(msg)`. -/
def abortFn (msg : String) : function :=
  ⟨fun _ => .error (.goAbort msg), 0⟩

/-- Witness context: `f1` (unary, adds 100) and `rev3` registered on a
fresh context. -/
def ctxRev : Context :=
  afterAddFunc (afterAddFunc MakeContext "f1" (.func (intFn1 (fun n => n + 100))))
    "rev3" (.func rev3fn)

/-- Witness context: a binary integer `+` registered on a fresh
context. -/
def ctxPlus : Context :=
  afterAddFunc MakeContext "+" (.func (intFn2 (fun a b => a + b)))

/-- Witness context: a deliberately panicking callable registered on a
fresh context. -/
def ctxBoom : Context :=
  afterAddFunc MakeContext "boom" (.func (abortFn "kaboom"))

/-- Witness context: a constant `x` bound on a fresh context. -/
def ctxVal : Context :=
  (MakeContext.SetValue "x" (.int 3)).1

/-! ## Helper lemmas -/

theorem bool_ne_true {b : Bool} (hb : b = false) : ¬(b = true) := by
  rw [hb]; exact Bool.false_ne_true

/-- Every `(vs, err)` pair that `subEval` returns with a non-nil `err`
has `vs = nil`: the named result `vs` of the Go function is never
assigned on an error path. -/
theorem run_ok_err_nil (c : Context) :
    ∀ (fuel : Nat) (r : Req) (ts : List String) (vs : List Value) (e : Error),
      run c fuel r = (ts, .ok (vs, some e)) → vs = [] := by
  intro fuel
  induction fuel with
  | zero =>
    intro r ts vs e h
    simp [run] at h
  | succ n ih =>
    intro r ts vs e h
    match r with
    | .eval [] => simp [run] at h
    | .eval (t :: rest) =>
      simp only [run] at h
      split at h
      · split at h
        · exact absurd h (by simp)
        · simp only [Prod.mk.injEq, Except.ok.injEq] at h
          exact h.2.1.symm ▸ rfl
        · split at h
          · exact absurd h (by simp)
          · simp only [Prod.mk.injEq, Except.ok.injEq] at h
            simp_all
      · split at h
        · simp_all
        · split at h
          · simp_all
          · simp_all
          · simp_all
    | .collect need terms acc =>
      simp only [run] at h
      split at h
      · split at h
        · exact absurd h (by simp)
        · simp only [Prod.mk.injEq, Except.ok.injEq] at h
          simp_all
        · exact ih _ _ _ _ h
      · simp_all

/-- The evaluator reads the context only through `funcs`, `vals` and
`parse_order`; the `terms` field it is handed plays no role. -/
theorem run_ext (c₁ c₂ : Context) (h1 : c₁.funcs = c₂.funcs) (h2 : c₁.vals = c₂.vals)
    (h3 : c₁.parse_order = c₂.parse_order) :
    ∀ (fuel : Nat) (r : Req), run c₁ fuel r = run c₂ fuel r := by
  intro fuel
  induction fuel with
  | zero => intro r; simp [run]
  | succ n ih =>
    intro r
    match r with
    | .eval [] => simp [run]
    | .eval (t :: rest) => simp only [run, h1, h2, h3, ih]
    | .collect need terms acc => simp only [run, ih]

/-- `MakeContext` satisfies the name-exclusivity invariant. -/
theorem exclusive_MakeContext : ExclusiveNames MakeContext := fun _ => Or.inl rfl

/-- One registration step preserves name exclusivity: `AddFunc` refuses
names bound as constants and `SetValue` refuses names bound as
functions. -/
theorem exclusive_applyOp (c : Context) (op : Op) (h : ExclusiveNames c) :
    ExclusiveNames (applyOp c op) := by
  match op with
  | .addFunc name v =>
    match v with
    | .nilVal => exact h
    | .nonFunc td => exact h
    | .func fn =>
      simp only [applyOp, afterAddFunc, Context.AddFunc]
      match hf : c.funcs name with
      | some _ => exact h
      | none =>
        match hv : c.vals name with
        | some _ => exact h
        | none =>
          intro n
          by_cases hn : n = name
          · subst hn; exact Or.inr hv
          · rcases h n with h2 | h2
            · exact Or.inl (by simp [hn, h2])
            · exact Or.inr h2
  | .setValue name v =>
    simp only [applyOp, Context.SetValue]
    match hf : c.funcs name with
    | some _ => exact h
    | none =>
      intro n
      by_cases hn : n = name
      · subst hn; exact Or.inl hf
      · rcases h n with h2 | h2
        · exact Or.inl h2
        · exact Or.inr (by simp [hn, h2])

/-- A whole registration sequence preserves name exclusivity. -/
theorem exclusive_applyOps : ∀ (ops : List Op) (c : Context),
    ExclusiveNames c → ExclusiveNames (applyOps c ops)
  | [], _, h => h
  | op :: ops, c, h => exclusive_applyOps ops _ (exclusive_applyOp c op h)

/-- Every character of the input is a sign character or lands in the
output of `stripSign`. -/
theorem stripSign_mem (cs : List Char) (c : Char) (h : c ∈ cs) :
    c = '+' ∨ c = '-' ∨ c ∈ (stripSign cs).2 := by
  match cs with
  | [] => cases h
  | c0 :: r =>
    by_cases h1 : c0 = '-'
    · subst h1
      rcases List.mem_cons.mp h with rfl | hm
      · exact Or.inr (Or.inl rfl)
      · exact Or.inr (Or.inr (by simp [stripSign, hm]))
    · by_cases h2 : c0 = '+'
      · subst h2
        rcases List.mem_cons.mp h with rfl | hm
        · exact Or.inl rfl
        · exact Or.inr (Or.inr (by simp [stripSign, h1, hm]))
      · exact Or.inr (Or.inr (by simpa [stripSign, h1, h2] using h))

/-- A member of a list is in its `takeWhile` part or its `dropWhile`
part. -/
theorem tw_dw_mem (p : Char → Bool) (l : List Char) (c : Char) (h : c ∈ l) :
    c ∈ l.takeWhile p ∨ c ∈ l.dropWhile p := by
  rw [← List.takeWhile_append_dropWhile (p := p) (l := l)] at h
  exact List.mem_append.mp h

/-- Every character of the input of `takeFrac` is the dot, a digit, or
lands in the unconsumed rest. -/
theorem takeFrac_mem (cs : List Char) (c : Char) (h : c ∈ cs) :
    c = '.' ∨ c.isDigit = true ∨ c ∈ (takeFrac cs).2 := by
  match cs with
  | [] => cases h
  | c0 :: r =>
    by_cases h0 : c0 = '.'
    · subst h0
      rcases List.mem_cons.mp h with rfl | hm
      · exact Or.inl rfl
      · rcases tw_dw_mem Char.isDigit r c hm with h2 | h2
        · exact Or.inr (Or.inl (List.mem_takeWhile_imp h2))
        · exact Or.inr (Or.inr (by simpa [takeFrac] using h2))
    · exact Or.inr (Or.inr (by simpa [takeFrac, h0] using h))

/-- Every character of the input of `takeExp` is an exponent marker, a
sign, a digit, or lands in the unconsumed rest. -/
theorem takeExp_mem (cs : List Char) (c : Char) (h : c ∈ cs) :
    c = 'e' ∨ c = 'E' ∨ c = '+' ∨ c = '-' ∨ c.isDigit = true ∨ c ∈ (takeExp cs).2.2 := by
  match cs with
  | [] => cases h
  | c0 :: r =>
    by_cases he : c0 = 'e' ∨ c0 = 'E'
    · by_cases hds : ((stripSign r).2.takeWhile Char.isDigit).isEmpty
      · refine Or.inr (Or.inr (Or.inr (Or.inr (Or.inr ?_))))
        simpa [takeExp, he, hds] using h
      · rcases List.mem_cons.mp h with rfl | hm
        · rcases he with rfl | rfl
          · exact Or.inl rfl
          · exact Or.inr (Or.inl rfl)
        · rcases stripSign_mem r c hm with rfl | rfl | hm2
          · exact Or.inr (Or.inr (Or.inl rfl))
          · exact Or.inr (Or.inr (Or.inr (Or.inl rfl)))
          · rcases tw_dw_mem Char.isDigit _ c hm2 with h2 | h2
            · exact Or.inr (Or.inr (Or.inr (Or.inr (Or.inl (List.mem_takeWhile_imp h2)))))
            · refine Or.inr (Or.inr (Or.inr (Or.inr (Or.inr ?_))))
              simpa [takeExp, he, hds] using h2
    · refine Or.inr (Or.inr (Or.inr (Or.inr (Or.inr ?_))))
      simpa [takeExp, he] using h

/-- Every character of a string is a digit, a float-literal punctuation
character, or lands in the trailing part of its `floatParts`
decomposition. -/
theorem floatParts_mem (s : String) (c : Char) (h : c ∈ s.toList) :
    c.isDigit = true ∨ c = '+' ∨ c = '-' ∨ c = '.' ∨ c = 'e' ∨ c = 'E' ∨
      c ∈ (floatParts s).trailing := by
  have htr : (floatParts s).trailing =
      (takeExp (takeFrac ((stripSign s.toList).2.dropWhile Char.isDigit)).2).2.2 := rfl
  rcases stripSign_mem s.toList c h with rfl | rfl | h1
  · exact Or.inr (Or.inl rfl)
  · exact Or.inr (Or.inr (Or.inl rfl))
  · rcases tw_dw_mem Char.isDigit _ c h1 with h2 | h2
    · exact Or.inl (List.mem_takeWhile_imp h2)
    · rcases takeFrac_mem _ c h2 with rfl | h3 | h3
      · exact Or.inr (Or.inr (Or.inr (Or.inl rfl)))
      · exact Or.inl h3
      · rcases takeExp_mem _ c h3 with rfl | rfl | rfl | rfl | h4 | h4
        · exact Or.inr (Or.inr (Or.inr (Or.inr (Or.inl rfl))))
        · exact Or.inr (Or.inr (Or.inr (Or.inr (Or.inr (Or.inl rfl)))))
        · exact Or.inr (Or.inl rfl)
        · exact Or.inr (Or.inr (Or.inl rfl))
        · exact Or.inl h4
        · exact Or.inr (Or.inr (Or.inr (Or.inr (Or.inr (Or.inr (htr ▸ h4))))))

/-- A canonical float literal contains no space. -/
theorem noSpace_of_canonicalFloat (s : String) (h : specCanonicalFloatLit s = true) :
    ' ' ∉ s.toList := by
  intro hm
  have hsplit : (!(floatParts s).ip.isEmpty) = true ∧ (floatParts s).trailing.isEmpty = true :=
    Bool.and_eq_true _ _ ▸ h
  have h2 : (floatParts s).trailing = [] := by
    simpa [List.isEmpty_iff] using hsplit.2
  rcases floatParts_mem s ' ' hm with h3 | h3 | h3 | h3 | h3 | h3 | h3
  · cases h3
  · cases h3
  · cases h3
  · cases h3
  · cases h3
  · cases h3
  · rw [h2] at h3; cases h3

/-- A canonical float literal is not the empty string. -/
theorem ne_nil_of_canonicalFloat (s : String) (h : specCanonicalFloatLit s = true) :
    s.toList ≠ [] := by
  intro h0
  unfold specCanonicalFloatLit floatParts at h
  rw [h0] at h
  simp [stripSign] at h

/-- A canonical integer literal contains no space. -/
theorem noSpace_of_canonicalInt (s : String) (h : specCanonicalIntLit s = true) :
    ' ' ∉ s.toList := by
  intro hm
  have hsplit := Bool.and_eq_true _ _ ▸ h
  have hall : ((stripSign s.toList).2.all Char.isDigit) = true := hsplit.2
  rcases stripSign_mem s.toList ' ' hm with h2 | h2 | h2
  · cases h2
  · cases h2
  · have := List.all_eq_true.mp hall ' ' h2
    cases this

/-- A canonical integer literal is not the empty string. -/
theorem ne_nil_of_canonicalInt (s : String) (h : specCanonicalIntLit s = true) :
    s.toList ≠ [] := by
  intro h0
  unfold specCanonicalIntLit at h
  rw [h0] at h
  simp [stripSign] at h

/-- `strings.Split` on a space-free input returns the input whole. -/
theorem splitOnSpace_no_space (cs : List Char) (h : ' ' ∉ cs) : splitOnSpace cs = [cs] := by
  induction cs with
  | nil => rfl
  | cons c r ih =>
    have hc : ¬ c = ' ' := fun h2 => h (h2 ▸ List.mem_cons_self c r)
    have hr := ih (fun hm => h (List.mem_cons_of_mem _ hm))
    simp [splitOnSpace, hc, hr]

/-- A non-empty space-free expression tokenizes to exactly itself. -/
theorem tokenize_single (s : String) (h : ' ' ∉ s.toList) (h0 : s.toList ≠ []) :
    tokenize s = [s] := by
  unfold tokenize
  rw [splitOnSpace_no_space _ h]
  have hmk : String.mk s.toList = s := rfl
  have hlen : 0 < s.length := by
    rw [show s.length = s.toList.length from rfl]
    exact List.length_pos.mpr h0
  simp [hmk, List.filter, hlen]

/-- `strconv.Atoi` succeeds exactly with the literal value on canonical
in-range integer literals. -/
theorem goAtoi_of_canonical (s : String) (h1 : specCanonicalIntLit s = true)
    (h2 : specIntLitInRange s = true) : goAtoi s = some (specIntLitVal s) := by
  obtain ⟨hne, hall⟩ := Bool.and_eq_true _ _ ▸ h1
  obtain ⟨hlo, hhi⟩ := Bool.and_eq_true _ _ ▸ h2
  have hlo2 : ¬(specIntLitVal s < -(2 ^ 63)) := not_lt.mpr (of_decide_eq_true hlo)
  have hhi2 : ¬((2 ^ 63 - 1 : Int) < specIntLitVal s) := not_lt.mpr (of_decide_eq_true hhi)
  have he : (stripSign s.toList).2.isEmpty = false := by
    cases hie : (stripSign s.toList).2.isEmpty
    · rfl
    · rw [hie] at hne; cases hne
  have heq : signedDigitsVal (stripSign s.toList) = specIntLitVal s := rfl
  have hc1 : ((stripSign s.toList).2.isEmpty || !((stripSign s.toList).2.all Char.isDigit))
      = false := by rw [he, hall]; rfl
  have hc2 : (decide (specIntLitVal s < -(2 ^ 63)) ||
      decide ((2 ^ 63 - 1 : Int) < specIntLitVal s)) = false := by
    rw [decide_eq_false hlo2, decide_eq_false hhi2]; rfl
  simp only [goAtoi, heq]
  rw [if_neg (bool_ne_true hc1), if_neg (bool_ne_true hc2)]

/-- `strconv.Atoi` fails on every token that is not a canonical integer
literal. -/
theorem goAtoi_none_of_not_canonical (s : String) (h : specCanonicalIntLit s = false) :
    goAtoi s = none := by
  simp only [specCanonicalIntLit] at h
  simp only [goAtoi]
  cases hie : (stripSign s.toList).2.isEmpty with
  | true =>
    rw [if_pos (by rfl)]
  | false =>
    rw [hie, Bool.not_false, Bool.true_and] at h
    rw [if_pos (by rw [h]; rfl)]

/-- `strconv.ParseFloat` succeeds with the literal value on canonical
in-range float literals. -/
theorem goParseFloat_of_canonical (s : String) (h : specCanonicalFloatLit s = true)
    (hov : goFloatOverflow s = false) : goParseFloat s = some (floatValQ s) := by
  obtain ⟨hip, htr⟩ := Bool.and_eq_true _ _ ▸ h
  simp only [goParseFloat, goFloatSyntax]
  rw [if_pos (by rw [hip, htr, hov]; rfl)]

/-! ## Claims -/

/-- C1: in every Context that registers the unary integer function `f1`
and the ternary `rev3(a,b,c) = (c,b,a)` (with `1`, `2`, `3` unbound and
the default parse order), `Eval "f1 rev3 1 2 3"` succeeds with exactly
`[f1(3), 2, 1]`: `rev3` consumes the literals `1 2 3` and yields
`[3,2,1]`, `f1` consumes only the first of those values, and the surplus
`[2,1]` is appended after the output of `f1`, in that order. -/
theorem C1_carry_forward (c : Context) (g : Int → Int)
    (hf1 : c.funcs "f1" = some (intFn1 g))
    (hrev : c.funcs "rev3" = some rev3fn)
    (h1f : c.funcs "1" = none) (h1v : c.vals "1" = none)
    (h2f : c.funcs "2" = none) (h2v : c.vals "2" = none)
    (h3f : c.funcs "3" = none) (h3v : c.vals "3" = none)
    (hpo : c.parse_order = [Ty.Integer, Ty.Float, Ty.StringT]) :
    c.Eval "f1 rev3 1 2 3" =
      ⟨[.int (g 3), .int 2, .int 1], none, { c with terms := [] }⟩ := by
  have ht : tokenize "f1 rev3 1 2 3" = ["f1", "rev3", "1", "2", "3"] := by decide
  have hp1 : parseLoop "1" [Ty.Integer, Ty.Float, Ty.StringT] = .ok (some (.int 1)) := rfl
  have hp2 : parseLoop "2" [Ty.Integer, Ty.Float, Ty.StringT] = .ok (some (.int 2)) := rfl
  have hp3 : parseLoop "3" [Ty.Integer, Ty.Float, Ty.StringT] = .ok (some (.int 3)) := rfl
  simp only [Context.Eval, ht, List.length_cons, List.length_nil, run, hf1, hrev, h1f, h1v,
    h2f, h2v, h3f, h3v, hpo, hp1, hp2, hp3, intFn1, rev3fn, List.nil_append, List.cons_append,
    List.append_nil, List.length_append, List.take, List.drop, Nat.reduceAdd, Nat.reduceMul,
    Nat.reduceLT, reduceIte, List.map_nil, List.filter_nil]

/-- Witness for C1 on a concrete context (`f1` adds 100). -/
theorem C1_carry_forward_witness :
    ctxRev.Eval "f1 rev3 1 2 3" =
      ⟨[.int 103, .int 2, .int 1], none, { ctxRev with terms := [] }⟩ :=
  C1_carry_forward ctxRev (fun n => n + 100) rfl rfl rfl rfl rfl rfl rfl rfl rfl

/-- C2: for every Context and expression, `Eval` returns either a result
with no error or an error with an empty result list; it never exposes
partially computed values alongside a non-nil error. -/
theorem C2_no_partial_results (c : Context) (e : String) :
    (c.Eval e).err = none ∨ (c.Eval e).vals = [] := by
  simp only [Context.Eval]
  split
  · next ts vs err heq =>
    match err with
    | none => exact Or.inl rfl
    | some er => exact Or.inr (run_ok_err_nil c _ _ _ _ _ heq)
  · exact Or.inr rfl
  · exact Or.inr rfl

/-- C3: with a registered binary (or higher-arity) `+` and the default
parse order, `Eval "+ 1"` exhausts the term queue before the input arity
is satisfied: the head access on the empty queue raises the underflow
fault, which `Eval` returns as an error, with no values. -/
theorem C3_underflow (c : Context) (fn : function)
    (hplus : c.funcs "+" = some fn) (hN : 2 ≤ fn.num)
    (h1f : c.funcs "1" = none) (h1v : c.vals "1" = none)
    (hpo : c.parse_order = [Ty.Integer, Ty.Float, Ty.StringT]) :
    c.Eval "+ 1" = ⟨[], some ⟨"Failed to evaluate (+ 1): runtime error: index out of range [0] with length 0.", true⟩,
      { c with terms := [] }⟩ := by
  have ht : tokenize "+ 1" = ["+", "1"] := by decide
  have hp1 : parseLoop "1" [Ty.Integer, Ty.Float, Ty.StringT] = .ok (some (.int 1)) := rfl
  have h0 : (0 : Nat) < fn.num := by omega
  have h1 : (1 : Nat) < fn.num := by omega
  simp only [Context.Eval, ht, List.length_cons, List.length_nil, Nat.reduceAdd, Nat.reduceMul,
    run, hplus, h1f, h1v, hpo, hp1, List.nil_append, h0, h1, if_true, GoPanic.message]
  simp [String.append_assoc]

/-- Witness for C3 on a concrete context with a binary integer `+`. -/
theorem C3_underflow_witness :
    ctxPlus.Eval "+ 1" = ⟨[], some ⟨"Failed to evaluate (+ 1): runtime error: index out of range [0] with length 0.", true⟩,
      { ctxPlus with terms := [] }⟩ :=
  C3_underflow ctxPlus (intFn2 (fun a b => a + b)) rfl (by decide) rfl rfl rfl

/-- C4: every fault raised below the top level of `Eval` (in particular
any panic raised while invoking a registered callable, including a
deliberate abort in the callable itself) is intercepted by the single
deferred `recover` in `Eval` and converted into an `Error` whose message
carries the original expression text and the fault description, and
whose stack-trace field is set; `Eval` is a total function, so no fault
escapes it, and no values are returned. -/
theorem C4_fault_interception (c : Context) (e : String) (ts : List String) (p : GoPanic)
    (h : run c (2 * (tokenize e).length + 4) (.eval (tokenize e)) = (ts, .error (.fault p))) :
    c.Eval e = ⟨[], some ⟨"Failed to evaluate (" ++ e ++ "): " ++ p.message ++ ".", true⟩,
      { c with terms := ts }⟩ := by
  simp only [Context.Eval, h]

/-- Witness for C4: a registered callable that deliberately panics. -/
theorem C4_fault_interception_witness :
    ctxBoom.Eval "boom" = ⟨[], some ⟨"Failed to evaluate (boom): kaboom.", true⟩,
      { ctxBoom with terms := [] }⟩ :=
  C4_fault_interception ctxBoom "boom" [] (.goAbort "kaboom") rfl

/-- C5 (amended): `AddFunc` fails with the not-a-function error when
its argument is a non-nil value of a non-callable type, but panics with
a nil-pointer dereference (at `reflect.TypeOf(nil).Kind()`, with no
`recover` in `AddFunc`) when the argument is the untyped nil, so that
case is not reported as a synchronous NotCallable error; it fails with
the already-registered error when the name is bound as a function and
with the name-collision error when the name is bound as a constant;
otherwise it succeeds and stores exactly the descriptor derived from
the callable (whose `num` field is the input arity read off the
signature at registration time), leaving all other bindings unchanged.
The errors are values returned by the call itself. -/
theorem C5_registration_amended (c : Context) (name : String) (v : GoVal) :
    (v = .nilVal → c.AddFunc name v = .error .nilDeref)
  ∧ (∀ td, v = .nonFunc td →
      c.AddFunc name v = .ok (c, some ⟨"Tried to add a " ++ td ++ " instead of a function.", false⟩))
  ∧ (∀ fn, v = .func fn → (c.funcs name).isSome = true →
      c.AddFunc name v = .ok (c, some ⟨"Tried to add the function \x27" ++ name ++ "\x27 more than once.", false⟩))
  ∧ (∀ fn, v = .func fn → c.funcs name = none → (c.vals name).isSome = true →
      c.AddFunc name v = .ok (c, some ⟨"Tried to give the name \x27" ++ name ++ "\x27 to a function and a value.", false⟩))
  ∧ (∀ fn, v = .func fn → c.funcs name = none → c.vals name = none →
      c.AddFunc name v = .ok (afterAddFunc c name v, none)
      ∧ (afterAddFunc c name v).funcs name = some fn
      ∧ (∀ k, k ≠ name → (afterAddFunc c name v).funcs k = c.funcs k)
      ∧ (afterAddFunc c name v).vals = c.vals) := by
  refine ⟨?_, ?_, ?_, ?_, ?_⟩
  · rintro rfl; rfl
  · rintro td rfl; rfl
  · rintro fn rfl hs
    obtain ⟨f0, hf0⟩ := Option.isSome_iff_exists.mp hs
    simp [Context.AddFunc, hf0]
  · rintro fn rfl hf hs
    obtain ⟨v0, hv0⟩ := Option.isSome_iff_exists.mp hs
    simp [Context.AddFunc, hf, hv0]
  · rintro fn rfl hf hv
    refine ⟨by simp [Context.AddFunc, afterAddFunc, hf, hv],
      by simp [Context.AddFunc, afterAddFunc, hf, hv], ?_, ?_⟩
    · intro k hk
      simp [Context.AddFunc, afterAddFunc, hf, hv, hk]
    · simp [Context.AddFunc, afterAddFunc, hf, hv]

/-- Witness for the amended C5: all five registration outcomes on
concrete contexts. -/
theorem C5_registration_amended_witness :
    MakeContext.AddFunc "nilf" GoVal.nilVal = .error .nilDeref
  ∧ MakeContext.AddFunc "sq" (.nonFunc "int") =
      .ok (MakeContext, some ⟨"Tried to add a int instead of a function.", false⟩)
  ∧ ctxPlus.AddFunc "+" (.func (intFn1 (fun n => n))) =
      .ok (ctxPlus, some ⟨"Tried to add the function \x27+\x27 more than once.", false⟩)
  ∧ ctxVal.AddFunc "x" (.func (intFn1 (fun n => n))) =
      .ok (ctxVal, some ⟨"Tried to give the name \x27x\x27 to a function and a value.", false⟩)
  ∧ MakeContext.AddFunc "id1" (.func (intFn1 (fun n => n)))
      = .ok (afterAddFunc MakeContext "id1" (.func (intFn1 (fun n => n))), none)
  ∧ (afterAddFunc MakeContext "id1" (.func (intFn1 (fun n => n)))).funcs "id1"
      = some (intFn1 (fun n => n)) :=
  ⟨(C5_registration_amended MakeContext "nilf" GoVal.nilVal).1 rfl,
   (C5_registration_amended MakeContext "sq" (.nonFunc "int")).2.1 "int" rfl,
   (C5_registration_amended ctxPlus "+" (.func (intFn1 (fun n => n)))).2.2.1
     (intFn1 (fun n => n)) rfl rfl,
   (C5_registration_amended ctxVal "x" (.func (intFn1 (fun n => n)))).2.2.2.1
     (intFn1 (fun n => n)) rfl rfl rfl,
   ((C5_registration_amended MakeContext "id1" (.func (intFn1 (fun n => n)))).2.2.2.2
     (intFn1 (fun n => n)) rfl rfl rfl).1,
   ((C5_registration_amended MakeContext "id1" (.func (intFn1 (fun n => n)))).2.2.2.2
     (intFn1 (fun n => n)) rfl rfl rfl).2.1⟩

/-- Counterexample to C5 as stated: on the untyped nil argument — which
is not invocable — `AddFunc` does not return the NotCallable error (or
any result) synchronously: it panics with a nil-pointer dereference at
`reflect.TypeOf(nil).Kind()`, and the panic escapes to the caller. -/
theorem C5_counterexample :
    MakeContext.AddFunc "f" GoVal.nilVal = .error GoPanic.nilDeref
  ∧ (MakeContext.AddFunc "f" GoVal.nilVal)
      ≠ .ok (MakeContext, some ⟨"Tried to add a nil instead of a function.", false⟩) :=
  ⟨rfl, by simp [Context.AddFunc]⟩

/-- C6: starting from `MakeContext`, after any sequence of `AddFunc` and
`SetValue` calls no name is ever simultaneously bound to both a function
and a constant. -/
theorem C6_name_exclusivity (ops : List Op) :
    ExclusiveNames (applyOps MakeContext ops) :=
  exclusive_applyOps ops MakeContext exclusive_MakeContext

/-- C7 (amended): under the default parse order, a canonical integer
literal that names no function or constant evaluates to the single
Integer value it denotes provided its value fits the 64-bit `int`
range, and a canonical float literal that is not a canonical integer
literal evaluates to the single Float value it denotes provided its
magnitude is within float64 range; the first kind in the parse order
whose parse succeeds wins. -/
theorem C7_literal_coercion_amended (c : Context) (L : String)
    (hpo : c.parse_order = [Ty.Integer, Ty.Float, Ty.StringT])
    (hf : c.funcs L = none) (hv : c.vals L = none) :
    (specCanonicalIntLit L = true → specIntLitInRange L = true →
      c.Eval L = ⟨[.int (specIntLitVal L)], none, { c with terms := [] }⟩)
  ∧ (specCanonicalFloatLit L = true → specCanonicalIntLit L = false →
      goFloatOverflow L = false →
      c.Eval L = ⟨[.float (specFloatLitVal L)], none, { c with terms := [] }⟩) := by
  constructor
  · intro hlit hrange
    have ht : tokenize L = [L] :=
      tokenize_single L (noSpace_of_canonicalInt L hlit) (ne_nil_of_canonicalInt L hlit)
    have ha := goAtoi_of_canonical L hlit hrange
    simp only [Context.Eval, ht, List.length_cons, List.length_nil, Nat.reduceAdd,
      Nat.reduceMul, run, hf, hv, hpo, parseLoop, ha]
    simp
  · intro hlit hnotint hov
    have ht : tokenize L = [L] :=
      tokenize_single L (noSpace_of_canonicalFloat L hlit) (ne_nil_of_canonicalFloat L hlit)
    have ha := goAtoi_none_of_not_canonical L hnotint
    have hp := goParseFloat_of_canonical L hlit hov
    simp only [Context.Eval, ht, List.length_cons, List.length_nil, Nat.reduceAdd,
      Nat.reduceMul, run, hf, hv, hpo, parseLoop, ha, hp, specFloatLitVal]
    simp

/-- Witness for the amended C7 on a fresh context: an integer literal
and a float literal. -/
theorem C7_literal_coercion_amended_witness :
    MakeContext.Eval "42" = ⟨[.int 42], none, { MakeContext with terms := [] }⟩
  ∧ MakeContext.Eval "1.5" =
      ⟨[.float (specFloatLitVal "1.5")], none, { MakeContext with terms := [] }⟩ :=
  ⟨(C7_literal_coercion_amended MakeContext "42" rfl rfl rfl).1 (by decide) (by decide),
   (C7_literal_coercion_amended MakeContext "1.5" rfl rfl rfl).2
     (by decide) (by decide) (by decide)⟩

/-- Counterexample to C7 as stated: `"9223372036854775808"` (2^63) is a
canonical integer literal, but `strconv.Atoi` fails on it with a range
error, so under the default parse order it evaluates to a single Float
value, not an Integer one; and `"1e999"` is a canonical float literal
that is not a canonical integer literal, but `strconv.ParseFloat` fails
on it with a range error, so it evaluates to a Text value, not a Float
one. -/
theorem C7_counterexample :
    specCanonicalIntLit "9223372036854775808" = true
  ∧ (MakeContext.Eval "9223372036854775808").err = none
  ∧ ((MakeContext.Eval "9223372036854775808").vals.map Value.isInt) = [false]
  ∧ specCanonicalFloatLit "1e999" = true
  ∧ specCanonicalIntLit "1e999" = false
  ∧ (MakeContext.Eval "1e999").err = none
  ∧ ((MakeContext.Eval "1e999").vals.map Value.isStr) = [true] :=
  ⟨by decide, by decide, by decide, by decide, by decide, by decide, by decide⟩

/-- C8 (amended): the term queue is stored in the `terms` field of the
`Context` and leftover terms can remain there after `Eval` returns, but
every `Eval` call rebuilds the queue from its own expression before
evaluating, so whatever `terms` holds when `Eval` is entered has no
influence on the result (values, error, or resulting context). -/
theorem C8_stale_terms_amended (c : Context) (e : String) (t : List String) :
    Context.Eval { c with terms := t } e = c.Eval e := by
  simp only [Context.Eval]
  rw [run_ext { c with terms := t } c rfl rfl rfl]

/-- Counterexample to C8 as stated: after `Eval "1 2"` on a fresh
context the unconsumed term `"2"` is still stored in the `terms` field
of the returned context. -/
theorem C8_counterexample :
    (MakeContext.Eval "1 2").ctx.terms = ["2"]
  ∧ (MakeContext.Eval "1 2").ctx.terms ≠ [] :=
  ⟨by decide, by decide⟩

/-- C9 (amended): extracting a non-Float value returned by `Eval` with
the as-float accessor (`reflect.Value.Float`) panics with a
`*reflect.ValueError`, exactly as the reflection-based code does; no
TypeMismatch result is produced. -/
theorem C9_accessor_amended (n : ℤ) (b : Bool) (s : String) :
    (Value.int n).goFloat = .error (.valueError "reflect.Value.Float" "int")
  ∧ (Value.bool b).goFloat = .error (.valueError "reflect.Value.Float" "bool")
  ∧ (Value.str s).goFloat = .error (.valueError "reflect.Value.Float" "string") :=
  ⟨rfl, rfl, rfl⟩

/-- Counterexample to C9 as stated: the Integer value returned by
`Eval "1"` on a fresh context, extracted with the as-float accessor,
produces a panic (an abort), not a TypeMismatch result. -/
theorem C9_counterexample :
    (MakeContext.Eval "1").vals = [Value.int 1]
  ∧ (Value.int 1).goFloat = .error (.valueError "reflect.Value.Float" "int") :=
  ⟨by decide, rfl⟩

/-- C10: whenever tokenization yields no terms (the empty expression or
an expression of separators only), `Eval` returns a non-nil error — the
head access on the empty queue is intercepted at the `Eval` boundary —
and no values; the call does not abort. -/
theorem C10_empty_expression (c : Context) (e : String) (h : tokenize e = []) :
    c.Eval e = ⟨[], some ⟨"Failed to evaluate (" ++ e ++
      "): runtime error: index out of range [0] with length 0.", true⟩,
      { c with terms := [] }⟩ := by
  simp only [Context.Eval, h, List.length_nil, run, GoPanic.message]
  simp [String.append_assoc]

/-- Witness for C10: the empty expression and a separators-only
expression. -/
theorem C10_empty_expression_witness :
    MakeContext.Eval "" = ⟨[], some ⟨"Failed to evaluate (): runtime error: index out of range [0] with length 0.", true⟩,
      { MakeContext with terms := [] }⟩
  ∧ MakeContext.Eval "  " = ⟨[], some ⟨"Failed to evaluate (  ): runtime error: index out of range [0] with length 0.", true⟩,
      { MakeContext with terms := [] }⟩ :=
  ⟨C10_empty_expression MakeContext "" (by decide),
   C10_empty_expression MakeContext "  " (by decide)⟩

end Polish

